import Mathlib

/-!
Verification of the multi-tenant database connection and provisioning manager
(`src/lib/surrealdb-multi.ts` and `src/services/database/setup.service.ts`).

The TypeScript code is shallowly embedded: pure computations (name derivation,
metadata merging, placeholder substitution) are translated into executable Lean
functions; network I/O (SurrealDB queries, the administrative HTTP endpoint) is
modelled by oracle records that fix each external call's outcome, together with
an explicit trace of attempted network effects; the concurrent promise-based
connection deduplication of `MultiDatabaseManager.getConnection` is modelled by
a small-step transition system over the manager state.
-/

/-! ## Basic JavaScript string helpers -/

/-- Character-list prefix test. Models `String.prototype.startsWith` and the
anchored regex prefix match used in `organizationId.replace(/^organization:/, '')`. -/
def isPrefList : List Char → List Char → Bool
  | [], _ => true
  | _ :: _, [] => false
  | a :: as, b :: bs => if a = b then isPrefList as bs else false

/-- Models `setup.service.ts` line 31/73/164/224:
`const cleanOrgId = organizationId.replace(/^organization:/, '')` —
strips one leading `organization:` tag if present. -/
def cleanOrg (s : String) : String :=
  if isPrefList "organization:".data s.data then
    String.mk (s.data.drop "organization:".data.length)
  else s

/-- Models `surrealdb-multi.ts` line 75 (`getOrganizationDatabase`):
``const database = `org_${orgId}`;`` — no prefix stripping happens here. -/
def getOrganizationDatabaseName (orgId : String) : String :=
  "org_" ++ orgId

/-- Database name the provisioning path derives for a raw tenant id:
`setup.service.ts` line 31 strips the `organization:` tag, then
`createOrganizationDatabase` (`surrealdb-multi.ts` line 84) prepends `org_`. -/
def provisionDatabaseName (organizationId : String) : String :=
  "org_" ++ cleanOrg organizationId

/-! ## Dynamic JSON-ish values

The metadata column of the control tenant is dynamically typed (`any` in the
source). `JVal` models the JavaScript values flowing through the metadata
merge; object fields are association lists looked up by key. -/

inductive JVal where
  | null
  | bool (b : Bool)
  | num (n : Int)
  | str (s : String)
  | obj (fields : List (String × JVal))

abbrev JObj := List (String × JVal)

/-- First-match field lookup in a JS object literal. -/
def objGet : JObj → String → Option JVal
  | [], _ => none
  | (k, v) :: rest, key => if k = key then some v else objGet rest key

/-- JS object spread `{...a, ...b}` up to key lookup: keys of `b` win,
remaining keys of `a` keep their values. -/
def spread (a b : JObj) : JObj :=
  a.filter (fun p => (objGet b p.1).isNone) ++ b

/-- JavaScript falsiness of a value (`undefined` is modelled as `Option.none`
one level up, so only present values are classified here). -/
def jsFalsy : JVal → Bool
  | .null => true
  | .bool b => !b
  | .num n => n = 0
  | .str s => s = ""
  | .obj _ => false

/-- Own enumerable properties produced by spreading a value: spreading an
object yields its fields, spreading a string yields index-to-character
entries, spreading `null`/booleans/numbers yields nothing. -/
def jsSpreadFields : JVal → JObj
  | .obj fs => fs
  | .str s => (s.data.enum.map fun p => (toString p.1, JVal.str (String.mk [p.2])))
  | _ => []

/-- Models `x || \x7b\x7d` applied to a possibly-absent value (`none` = `undefined`). -/
def orEmptyObj : Option JVal → JVal
  | some w => if jsFalsy w then .obj [] else w
  | none => .obj []

/-- JS property access `v.k` on an arbitrary value: `undefined` unless `v`
is an object with the field. -/
def getFieldJs : JVal → String → Option JVal
  | .obj fs, k => objGet fs k
  | _, _ => none

/-- Models `setup.service.ts` lines 128-137: builds the merged metadata object
`{ ...currentMetadata, setup: { ...(currentMetadata.setup || {}), ...metadata } }`
where `currentMetadata = orgRecord?.metadata || {}`. -/
def mergedMetadata (metadataVal : Option JVal) (patch : JObj) : JObj :=
  let currentMetadata := orEmptyObj metadataVal
  let curSetup := orEmptyObj (getFieldJs currentMetadata "setup")
  spread (jsSpreadFields currentMetadata)
    [("setup", JVal.obj (spread (jsSpreadFields curSetup) patch))]

/-! ## JSON serialization

`setup.service.ts` line 142 writes `JSON.stringify(updatedMetadata)` into the
metadata column. The serializer below models `JSON.stringify` on the `JVal`
fragment (string escaping restricted to quote and backslash, which suffices
for the values this subsystem produces). -/

/-- Escape a character for a JSON string literal. -/
def escChar (c : Char) : List Char :=
  if c = '"' then ['\\', '"']
  else if c = '\\' then ['\\', '\\']
  else [c]

/-- JSON quoting of a string. -/
def jsonQuote (s : String) : String :=
  String.mk ('"' :: (s.data.flatMap escChar) ++ ['"'])

mutual

/-- Models `JSON.stringify` on dynamic metadata values. -/
def jsonStringify : JVal → String
  | .null => "null"
  | .bool b => if b then "true" else "false"
  | .num n => toString n
  | .str s => jsonQuote s
  | .obj fs => "\x7b" ++ jsonFields fs ++ "\x7d"

/-- Comma-separated `"key":value` serialization of object fields. -/
def jsonFields : List (String × JVal) → String
  | [] => ""
  | [(k, v)] => jsonQuote k ++ ":" ++ jsonStringify v
  | (k, v) :: p :: rest => jsonQuote k ++ ":" ++ jsonStringify v ++ "," ++ jsonFields (p :: rest)

end

/-! ## JavaScript `String.prototype.replace` with a string replacement

`surrealdb-multi.ts` line 95:
`schemaContent.replace(/__DATABASE_NAME__/g, database)`.
A string used as the second argument of `replace` is not inserted verbatim:
JavaScript interprets `$$`, `$&`, a dollar followed by a backtick, and a
dollar followed by an apostrophe as replacement patterns (there are no capture
groups in this regex, so `$1` etc. stay literal). `jsExpand` models that
expansion; `jsReplaceGo` models the global left-to-right non-overlapping
scan of the original string. -/

/-- Expand a replacement string at one match site. `m` is the matched text,
`pre` the portion of the original string before the match, `post` the portion
after it. -/
def jsExpand (m pre post : List Char) : List Char → List Char
  | [] => []
  | [c] => [c]
  | c :: d :: rest =>
    if c = '$' then
      if d = '$' then '$' :: jsExpand m pre post rest
      else if d = '&' then m ++ jsExpand m pre post rest
      else if d = Char.ofNat 96 then pre ++ jsExpand m pre post rest
      else if d = Char.ofNat 39 then post ++ jsExpand m pre post rest
      else c :: jsExpand m pre post (d :: rest)
    else c :: jsExpand m pre post (d :: rest)

/-- Global replace scan. `pre` accumulates the already-scanned portion of the
original string (needed by the dollar-backtick pattern). The length conjunct
in the guard is implied by `isPrefList` and is present only to justify
termination. -/
def jsReplaceGo (pat rep : List Char) (pre l : List Char) : List Char :=
  if h : pat ≠ [] ∧ (pat.length ≤ l.length ∧ isPrefList pat l) then
    jsExpand pat pre (l.drop pat.length) rep ++
      jsReplaceGo pat rep (pre ++ pat) (l.drop pat.length)
  else
    match l with
    | [] => []
    | c :: rest => c :: jsReplaceGo pat rep (pre ++ [c]) rest
termination_by l.length
decreasing_by
  · have hp : 0 < pat.length := List.length_pos.mpr h.1
    simp only [List.length_drop]
    omega
  · simp

/-- Models `s.replace(/pat/g, rep)` for a literal pattern `pat`. -/
def jsReplaceAll (pat rep s : String) : String :=
  String.mk (jsReplaceGo pat.data rep.data [] s.data)

/-- Models `surrealdb-multi.ts` line 95: substitute the derived database name for the
placeholder token throughout the schema template. -/
def substituteSchema (schemaContent database : String) : String :=
  jsReplaceAll "__DATABASE_NAME__" database schemaContent

/-- Greedy left-to-right split of a character list on a pattern: the parts
between the non-overlapping matches that `jsReplaceGo` replaces. -/
def splitOnSeq (pat : List Char) (l : List Char) : List (List Char) :=
  if h : pat ≠ [] ∧ (pat.length ≤ l.length ∧ isPrefList pat l) then
    [] :: splitOnSeq pat (l.drop pat.length)
  else
    match l with
    | [] => [[]]
    | c :: rest =>
      match splitOnSeq pat rest with
      | [] => [[c]]
      | p :: ps => (c :: p) :: ps
termination_by l.length
decreasing_by
  · have hp : 0 < pat.length := List.length_pos.mpr h.1
    simp only [List.length_drop]
    omega
  · simp

/-- Contiguous-occurrence test: does `pat` occur as a substring of `l`? -/
def containsSeq (pat : List Char) (l : List Char) : Bool :=
  if isPrefList pat l then true
  else
    match l with
    | [] => false
    | _ :: rest => containsSeq pat rest

/-! ## Network effects and oracles

External calls (SurrealDB connections and queries, the administrative HTTP
endpoint) are modelled by oracles fixing their outcomes. Each embedded
operation additionally returns the trace of network calls it attempted, in
order, so that claims about "no network I/O" are statable. -/

/-- One attempted network call. -/
inductive NetEffect where
  | adminSchemaExec (ns db script : String)
  | controlRead (recordId : String)
  | controlWrite (recordId : String) (value : JVal)
  | connectAttempt (ns db : String)
  | introspect (ns db : String)

/-- Outcomes of the external calls made by `updateOrganizationMetadata`:
the `getMainDB` connection, the `SELECT metadata FROM $orgId` read (its
`.ok` value is the `orgRecord?.metadata` JavaScript value, `none` meaning
`undefined` — record absent or field absent), and the `UPDATE` write. -/
structure MetaOracle where
  mainDb : Except String Unit
  readMeta : Except String (Option JVal)
  writeRes : Except String Unit

/-- Models `setup.service.ts` lines 108-150 (`updateOrganizationMetadata`): read the
current metadata of the tenant's control record, merge the patch into its
`setup` sub-object, and write back `JSON.stringify` of the merged object.
Returns the overall outcome (this function rethrows every failure, line 148)
and the attempted network calls. -/
def updateOrganizationMetadata (organizationId : String) (metadata : JObj)
    (o : MetaOracle) : Except String Unit × List NetEffect :=
  let id := if isPrefList "organization:".data organizationId.data
    then organizationId else "organization:" ++ organizationId
  match o.mainDb with
  | .error e => (.error e, [])
  | .ok _ =>
    match o.readMeta with
    | .error e => (.error e, [.controlRead id])
    | .ok currentVal =>
      let written := JVal.str (jsonStringify (JVal.obj (mergedMetadata currentVal metadata)))
      match o.writeRes with
      | .error e => (.error e, [.controlRead id, .controlWrite id written])
      | .ok _ => (.ok (), [.controlRead id, .controlWrite id written])

/-- Models `surrealdb-multi.ts` lines 83-131 (`createOrganizationDatabase`): derive
the database name, read the schema template for the tenant type, substitute
the placeholder, and POST the script to the administrative `/sql` endpoint
under the `needexcel_organization` namespace. `readSchema` is the outcome of
the file read (no network), `postResult` the outcome of the HTTP call. -/
def createOrganizationDatabase (orgId : String) (readSchema : Except String String)
    (postResult : Except String Unit) : Except String Unit × List NetEffect :=
  let database := "org_" ++ orgId
  match readSchema with
  | .error e => (.error e, [])
  | .ok schemaContent =>
    let script := substituteSchema schemaContent database
    match postResult with
    | .error e => (.error e, [.adminSchemaExec "needexcel_organization" database script])
    | .ok _ => (.ok (), [.adminSchemaExec "needexcel_organization" database script])

/-- Result record of `setupOrganizationDatabase` (`SetupResult` in the source;
`organizationType` is kept as the raw string the caller passed). -/
structure SetupResult where
  success : Bool
  database : String
  organizationType : String
  error : Option String
  timestamp : String

/-- External-call outcomes consumed by one `setupOrganizationDatabase` run. -/
structure SetupOracle where
  readSchema : Except String String
  postResult : Except String Unit
  metaCompleted : MetaOracle
  metaFailed : MetaOracle

/-- Error message thrown by the tenant-type validation
(`setup.service.ts` lines 38-42). -/
def invalidTypeMsg (organizationType : String) : String :=
  "Invalid organization type: " ++ organizationType ++
    ". Must be 'retail' or 'restaurant'"

/-- Patch recorded after successful provisioning (`setup.service.ts` lines 56-61). -/
def completedPatch (cleanOrgId timestamp organizationType : String) : JObj :=
  [("database", .str ("org_" ++ cleanOrgId)),
   ("setupStatus", .str "completed"),
   ("setupTimestamp", .str timestamp),
   ("organizationType", .str organizationType)]

/-- Patch recorded in the catch path (`setup.service.ts` lines 86-90). -/
def failedPatch (errorMessage timestamp : String) : JObj :=
  [("setupStatus", .str "failed"),
   ("setupError", .str errorMessage),
   ("setupTimestamp", .str timestamp)]

/-- Catch path of `setupOrganizationDatabase` (`setup.service.ts` lines 71-102):
attempt to record a `failed` status (its own failure is swallowed, lines 91-93)
and return a failure result carrying the caught error message. -/
def setupCatch (organizationId organizationType timestamp errorMessage : String)
    (priorEffects : List NetEffect) (o : SetupOracle) : SetupResult × List NetEffect :=
  let cleanOrgId := cleanOrg organizationId
  let recordFailed := updateOrganizationMetadata organizationId
    (failedPatch errorMessage timestamp) o.metaFailed
  ({ success := false, database := "org_" ++ cleanOrgId,
     organizationType := organizationType, error := some errorMessage,
     timestamp := timestamp },
   priorEffects ++ recordFailed.2)

/-- Models `setup.service.ts` lines 23-103 (`setupOrganizationDatabase`): validate the
tenant type, provision the database through the administrative endpoint, then
record a `completed` status; any thrown error (including a failure of the
`completed`-status write, which is *not* isolated) lands in the catch path. -/
def setupOrganizationDatabase (organizationId organizationType timestamp : String)
    (o : SetupOracle) : SetupResult × List NetEffect :=
  let cleanOrgId := cleanOrg organizationId
  if organizationType ≠ "retail" ∧ organizationType ≠ "restaurant" then
    setupCatch organizationId organizationType timestamp
      (invalidTypeMsg organizationType) [] o
  else
    match createOrganizationDatabase cleanOrgId o.readSchema o.postResult with
    | (.error e, eff1) =>
      setupCatch organizationId organizationType timestamp e eff1 o
    | (.ok _, eff1) =>
      match updateOrganizationMetadata organizationId
        (completedPatch cleanOrgId timestamp organizationType) o.metaCompleted with
      | (.error e, eff2) =>
        setupCatch organizationId organizationType timestamp e (eff1 ++ eff2) o
      | (.ok _, eff2) =>
        ({ success := true, database := "org_" ++ cleanOrgId,
           organizationType := organizationType, error := none,
           timestamp := timestamp },
         eff1 ++ eff2)

/-! ## Database existence check and setup status check -/

/-- Outcomes of the external calls of `checkOrganizationDatabaseExists`:
the `getConnection` attempt and the `INFO FOR DB;` introspection query
(its `.ok` value is the result rows). -/
structure ExistsOracle where
  connect : Except String Unit
  queryInfo : Except String (List JVal)

/-- Models `surrealdb-multi.ts` lines 159-178 (`checkOrganizationDatabaseExists`):
`connections` is the set of cache keys of the manager. Returns true without
any network call when the key is cached; otherwise connects and introspects,
treating every error as non-existence. -/
def checkOrganizationDatabaseExists (connections : List String) (orgId : String)
    (o : ExistsOracle) : Bool × List NetEffect :=
  let database := "org_" ++ orgId
  let key := "needexcel_organization:" ++ database
  if connections.contains key then (true, [])
  else
    match o.connect with
    | .error _ => (false, [.connectAttempt "needexcel_organization" database])
    | .ok _ =>
      match o.queryInfo with
      | .error _ => (false, [.connectAttempt "needexcel_organization" database,
                             .introspect "needexcel_organization" database])
      | .ok result => (decide (0 < result.length),
                       [.connectAttempt "needexcel_organization" database,
                        .introspect "needexcel_organization" database])

/-- One row of `SELECT id, metadata FROM $orgId` (`metadata = none` models an
absent field). -/
structure OrgRow where
  id : String
  metadata : Option JVal

/-- Result record of `checkOrganizationSetup`. The source annotates `status`
as an enum but at runtime passes stored values through unchecked, and
`database`/`status` come from dynamic metadata, so they are kept as `JVal`. -/
structure CheckResult where
  isSetup : Bool
  database : JVal
  status : JVal
  error : Option JVal
  metadata : Option JVal

/-- Outcomes of the external calls of `checkOrganizationSetup`: the
`getMainDB` connection, the control-tenant read (its `.ok` value is the row
list `orgResult?.[0]`), and the oracle for the nested existence check. -/
structure CheckOracle where
  mainDb : Except String Unit
  rows : Except String (List OrgRow)
  existsOracle : ExistsOracle

/-- Models `org.metadata?.setup` — optional chaining then property access. -/
def metadataSetup (metadata : Option JVal) : Option JVal :=
  match metadata with
  | none => none
  | some v => getFieldJs v "setup"

/-- JS truthiness of a possibly-absent value (`if (setupMetadata)`). -/
def jsTruthyOpt : Option JVal → Bool
  | none => false
  | some v => !jsFalsy v

/-- Models `x || y` for a possibly-absent `x` against a default value `y`. -/
def jsOrVal (x : Option JVal) (y : JVal) : JVal :=
  match x with
  | none => y
  | some v => if jsFalsy v then y else v

/-- Strict equality `v === 'completed'`-style test against a string literal. -/
def jsStrictEqStr (v : Option JVal) (s : String) : Bool :=
  match v with
  | some (.str t) => t = s
  | _ => false

/-- Models `setup.service.ts` lines 155-233 (`checkOrganizationSetup`): fetch the
tenant's control record; absence is a normal `pending` result; otherwise the
actual database existence is consulted before the recorded status; the outer
catch converts any thrown error into a `failed` result. -/
def checkOrganizationSetup (connections : List String) (organizationId : String)
    (o : CheckOracle) : CheckResult :=
  let cleanOrgId := cleanOrg organizationId
  match o.mainDb with
  | .error e =>
    { isSetup := false, database := .str ("org_" ++ cleanOrgId),
      status := .str "failed", error := some (.str e), metadata := none }
  | .ok _ =>
    match o.rows with
    | .error e =>
      { isSetup := false, database := .str ("org_" ++ cleanOrgId),
        status := .str "failed", error := some (.str e), metadata := none }
    | .ok [] =>
      { isSetup := false, database := .str ("org_" ++ cleanOrgId),
        status := .str "pending", error := some (.str "Organization not found"),
        metadata := none }
    | .ok (org :: _) =>
      let setupMetadata := metadataSetup org.metadata
      if (checkOrganizationDatabaseExists connections cleanOrgId o.existsOracle).1 = false then
        { isSetup := false, database := .str ("org_" ++ cleanOrgId),
          status := .str "pending", error := some (.str "Database does not exist"),
          metadata := none }
      else if jsTruthyOpt setupMetadata then
        { isSetup := jsStrictEqStr (setupMetadata.bind (fun v => getFieldJs v "setupStatus")) "completed",
          database := jsOrVal (setupMetadata.bind (fun v => getFieldJs v "database"))
            (.str ("org_" ++ cleanOrgId)),
          status := jsOrVal (setupMetadata.bind (fun v => getFieldJs v "setupStatus"))
            (.str "pending"),
          error := setupMetadata.bind (fun v => getFieldJs v "setupError"),
          metadata := setupMetadata }
      else
        { isSetup := true, database := .str ("org_" ++ cleanOrgId),
          status := .str "completed", error := none, metadata := none }

/-! ## Connection deduplication (`MultiDatabaseManager.getConnection`)

`surrealdb-multi.ts` lines 21-47. For one fixed `TenantKey` (the code indexes
both maps by the same key string, and operations for one key never inspect
other keys), the manager state is: the cache entry (`connections.get(key)`),
the in-flight entry (`connecting.get(key)`), how many underlying connect
operations have begun (`started`, each begun attempt getting id `0, 1, ...`),
and the resolution each begun attempt has reached. Logical callers are
threads; JavaScript runs each synchronous block atomically, so each `Step`
constructor is one synchronous block of the source:

* `hitCache` — lines 25-27, the cache-hit early return;
* `joinFollower` — lines 30-32, awaiting the existing in-flight promise;
* `startLeader` — lines 35-36, beginning `createConnection` and registering
  the promise in `connecting`;
* `resolve` — the `createConnection` promise settling (lines 49-68);
* `leaderOk` / `leaderErr` — lines 38-46, the leader's continuation caching
  the connection and clearing the registry entry (or clearing it on failure);
* `followerDone` — a follower's await resuming with the settled outcome. -/

/-- Settled outcome of one connection-establishment attempt. -/
inductive ConnOutcome where
  | conn (c : Nat)
  | err (e : Nat)
deriving DecidableEq

/-- Program counter of one logical caller of `getConnection`. -/
inductive ThreadState where
  | ready
  | waitingLeader (a : Nat)
  | waitingFollower (a : Nat)
  | doneCache (c : Nat)
  | doneLeader (a : Nat) (o : ConnOutcome)
  | doneFollower (a : Nat) (o : ConnOutcome)
deriving DecidableEq

/-- Manager state for one tenant key, plus the thread pool. -/
structure MState where
  connections : Option Nat
  connecting : Option Nat
  started : Nat
  resolved : Nat → Option ConnOutcome
  threads : Nat → ThreadState

/-- Point update of the thread pool. -/
def updThread (t : Nat → ThreadState) (i : Nat) (v : ThreadState) : Nat → ThreadState :=
  fun j => if j = i then v else t j

/-- The result a finished caller received: the cached connection for a cache
hit, otherwise the settled outcome of the attempt it awaited. -/
def resultOf : ThreadState → Option ConnOutcome
  | .doneCache c => some (.conn c)
  | .doneLeader _ o => some o
  | .doneFollower _ o => some o
  | _ => none

/-- One atomic synchronous block of `getConnection` or one promise settlement. -/
inductive Step : MState → MState → Prop where
  | hitCache (s : MState) (i c : Nat)
      (ht : s.threads i = .ready) (hc : s.connections = some c) :
      Step s { s with threads := updThread s.threads i (.doneCache c) }
  | joinFollower (s : MState) (i a : Nat)
      (ht : s.threads i = .ready) (hc : s.connections = none)
      (hf : s.connecting = some a) :
      Step s { s with threads := updThread s.threads i (.waitingFollower a) }
  | startLeader (s : MState) (i : Nat)
      (ht : s.threads i = .ready) (hc : s.connections = none)
      (hf : s.connecting = none) :
      Step s { s with connecting := some s.started, started := s.started + 1,
                      threads := updThread s.threads i (.waitingLeader s.started) }
  | resolve (s : MState) (a : Nat) (o : ConnOutcome)
      (ha : a < s.started) (hr : s.resolved a = none) :
      Step s { s with resolved := fun b => if b = a then some o else s.resolved b }
  | leaderOk (s : MState) (i a c : Nat)
      (ht : s.threads i = .waitingLeader a) (hr : s.resolved a = some (.conn c)) :
      Step s { s with connections := some c, connecting := none,
                      threads := updThread s.threads i (.doneLeader a (.conn c)) }
  | leaderErr (s : MState) (i a e : Nat)
      (ht : s.threads i = .waitingLeader a) (hr : s.resolved a = some (.err e)) :
      Step s { s with connecting := none,
                      threads := updThread s.threads i (.doneLeader a (.err e)) }
  | followerDone (s : MState) (i a : Nat) (o : ConnOutcome)
      (ht : s.threads i = .waitingFollower a) (hr : s.resolved a = some o) :
      Step s { s with threads := updThread s.threads i (.doneFollower a o) }

/-- Initial state: empty cache and registry, no attempt begun, every caller
still to issue its call. -/
def initState : MState :=
  { connections := none, connecting := none, started := 0,
    resolved := fun _ => none, threads := fun _ => .ready }

/-- States reachable by interleaving `getConnection` callers. -/
inductive Reach : MState → Prop where
  | init : Reach initState
  | step {s s' : MState} : Reach s → Step s s' → Reach s'

/-- Inductive invariant of the deduplication protocol. -/
structure DedupInv (s : MState) : Prop where
  unresolvedConnecting : ∀ a, a < s.started → s.resolved a = none → s.connecting = some a
  connectingLt : ∀ a, s.connecting = some a → a < s.started ∧ s.connections = none
  followerLt : ∀ i a, s.threads i = .waitingFollower a → a < s.started
  doneLeaderLt : ∀ i a o, s.threads i = .doneLeader a o → a < s.started
  doneFollowerLt : ∀ i a o, s.threads i = .doneFollower a o → a < s.started
  doneResolved : ∀ i a o,
    s.threads i = .doneLeader a o ∨ s.threads i = .doneFollower a o →
    s.resolved a = some o
  cacheFromAttempt : ∀ i c, s.threads i = .doneCache c →
    ∃ a, a < s.started ∧ s.resolved a = some (.conn c)
  connectionsFromAttempt : ∀ c, s.connections = some c →
    ∃ a, a < s.started ∧ s.resolved a = some (.conn c)
  leaderConnecting : ∀ i a, s.threads i = .waitingLeader a → s.connecting = some a
  leaderUnique : ∀ i j a b,
    s.threads i = .waitingLeader a → s.threads j = .waitingLeader b → i = j
  successDelivered : ∀ a c, s.resolved a = some (.conn c) →
    (∃ c', s.connections = some c') ∨ s.connecting = some a
  secondNeedsFailure : 2 ≤ s.started →
    ∃ a e, a < s.started ∧ s.resolved a = some (.err e)

/-- Example trace, step 1: thread 0 begins the only connect attempt. -/
def exS1 : MState :=
  { initState with connecting := some initState.started,
                   started := initState.started + 1,
                   threads := updThread initState.threads 0 (.waitingLeader initState.started) }

/-- Example trace, step 2: attempt 0 settles successfully with connection 5. -/
def exS2 : MState :=
  { exS1 with resolved := fun b => if b = 0 then some (.conn 5) else exS1.resolved b }

/-- Example trace, step 3: the leader caches connection 5 and clears the
in-flight registry entry. -/
def exS3 : MState :=
  { exS2 with connections := some 5, connecting := none,
              threads := updThread exS2.threads 0 (.doneLeader 0 (.conn 5)) }

/-- Join parts with a separator (the shape `jsReplaceGo`'s output takes:
the scanned parts with each removed pattern occurrence replaced). -/
def joinWith (sep : List Char) : List (List Char) → List Char
  | [] => []
  | [p] => p
  | p :: q :: rest => p ++ sep ++ joinWith sep (q :: rest)

/-! ## Theorems: deduplication invariant -/

theorem updThread_self (t : Nat → ThreadState) (i : Nat) (v : ThreadState) :
    updThread t i v i = v := by
  simp [updThread]

theorem dedupInv_init : DedupInv initState := by
  refine ⟨?_, ?_, ?_, ?_, ?_, ?_, ?_, ?_, ?_, ?_, ?_, ?_⟩ <;> simp [initState]

theorem dedupInv_step {s s' : MState} (hs : Step s s') (hI : DedupInv s) : DedupInv s' := by
  obtain ⟨hA, hB, hFl, hDl, hDf, hE, hF, hG, hJ, hU, hP, hQ⟩ := hI
  cases hs with
  | hitCache i c ht hc =>
    refine ⟨hA, hB, ?_, ?_, ?_, ?_, ?_, hG, ?_, ?_, hP, hQ⟩
    · intro j b h
      simp only [updThread] at h
      rcases eq_or_ne j i with rfl | hj
      · rw [if_pos rfl] at h; simp at h
      · rw [if_neg hj] at h; exact hFl j b h
    · intro j b o h
      simp only [updThread] at h
      rcases eq_or_ne j i with rfl | hj
      · rw [if_pos rfl] at h; simp at h
      · rw [if_neg hj] at h; exact hDl j b o h
    · intro j b o h
      simp only [updThread] at h
      rcases eq_or_ne j i with rfl | hj
      · rw [if_pos rfl] at h; simp at h
      · rw [if_neg hj] at h; exact hDf j b o h
    · intro j b o h
      simp only [updThread] at h
      rcases eq_or_ne j i with rfl | hj
      · rw [if_pos rfl] at h
        rcases h with h | h <;> simp at h
      · rw [if_neg hj] at h; exact hE j b o h
    · intro j c' h
      simp only [updThread] at h
      rcases eq_or_ne j i with rfl | hj
      · rw [if_pos rfl] at h
        simp at h
        subst h
        exact hG c hc
      · rw [if_neg hj] at h; exact hF j c' h
    · intro j b h
      simp only [updThread] at h
      rcases eq_or_ne j i with rfl | hj
      · rw [if_pos rfl] at h; simp at h
      · rw [if_neg hj] at h; exact hJ j b h
    · intro j k b b' h1 h2
      simp only [updThread] at h1 h2
      rcases eq_or_ne j i with rfl | hj
      · rw [if_pos rfl] at h1; simp at h1
      · rw [if_neg hj] at h1
        rcases eq_or_ne k i with rfl | hk
        · rw [if_pos rfl] at h2; simp at h2
        · rw [if_neg hk] at h2; exact hU j k b b' h1 h2
  | joinFollower i a ht hc hf =>
    refine ⟨hA, hB, ?_, ?_, ?_, ?_, ?_, hG, ?_, ?_, hP, hQ⟩
    · intro j b h
      simp only [updThread] at h
      rcases eq_or_ne j i with rfl | hj
      · rw [if_pos rfl] at h
        simp at h
        subst h
        exact (hB a hf).1
      · rw [if_neg hj] at h; exact hFl j b h
    · intro j b o h
      simp only [updThread] at h
      rcases eq_or_ne j i with rfl | hj
      · rw [if_pos rfl] at h; simp at h
      · rw [if_neg hj] at h; exact hDl j b o h
    · intro j b o h
      simp only [updThread] at h
      rcases eq_or_ne j i with rfl | hj
      · rw [if_pos rfl] at h; simp at h
      · rw [if_neg hj] at h; exact hDf j b o h
    · intro j b o h
      simp only [updThread] at h
      rcases eq_or_ne j i with rfl | hj
      · rw [if_pos rfl] at h
        rcases h with h | h <;> simp at h
      · rw [if_neg hj] at h; exact hE j b o h
    · intro j c' h
      simp only [updThread] at h
      rcases eq_or_ne j i with rfl | hj
      · rw [if_pos rfl] at h; simp at h
      · rw [if_neg hj] at h; exact hF j c' h
    · intro j b h
      simp only [updThread] at h
      rcases eq_or_ne j i with rfl | hj
      · rw [if_pos rfl] at h; simp at h
      · rw [if_neg hj] at h; exact hJ j b h
    · intro j k b b' h1 h2
      simp only [updThread] at h1 h2
      rcases eq_or_ne j i with rfl | hj
      · rw [if_pos rfl] at h1; simp at h1
      · rw [if_neg hj] at h1
        rcases eq_or_ne k i with rfl | hk
        · rw [if_pos rfl] at h2; simp at h2
        · rw [if_neg hk] at h2; exact hU j k b b' h1 h2
  | startLeader i ht hc hf =>
    refine ⟨?_, ?_, ?_, ?_, ?_, ?_, ?_, ?_, ?_, ?_, ?_, ?_⟩
    · intro a ha hr
      have ha' : a < s.started + 1 := ha
      have hr' : s.resolved a = none := hr
      show some s.started = some a
      rcases Nat.lt_succ_iff_lt_or_eq.mp ha' with hlt | heq
      · have := hA a hlt hr'
        rw [hf] at this
        simp at this
      · rw [heq]
    · intro b h
      have h' : some s.started = some b := h
      injection h' with h'
      subst h'
      exact ⟨Nat.lt_succ_self _, hc⟩
    · intro j b h
      simp only [updThread] at h
      rcases eq_or_ne j i with rfl | hj
      · rw [if_pos rfl] at h; simp at h
      · rw [if_neg hj] at h
        have := hFl j b h
        show b < s.started + 1
        omega
    · intro j b o h
      simp only [updThread] at h
      rcases eq_or_ne j i with rfl | hj
      · rw [if_pos rfl] at h; simp at h
      · rw [if_neg hj] at h
        have := hDl j b o h
        show b < s.started + 1
        omega
    · intro j b o h
      simp only [updThread] at h
      rcases eq_or_ne j i with rfl | hj
      · rw [if_pos rfl] at h; simp at h
      · rw [if_neg hj] at h
        have := hDf j b o h
        show b < s.started + 1
        omega
    · intro j b o h
      simp only [updThread] at h
      rcases eq_or_ne j i with rfl | hj
      · rw [if_pos rfl] at h
        rcases h with h | h <;> simp at h
      · rw [if_neg hj] at h; exact hE j b o h
    · intro j c' h
      simp only [updThread] at h
      rcases eq_or_ne j i with rfl | hj
      · rw [if_pos rfl] at h; simp at h
      · rw [if_neg hj] at h
        obtain ⟨b, hlt, hres⟩ := hF j c' h
        refine ⟨b, ?_, hres⟩
        show b < s.started + 1
        omega
    · intro c h
      have h' : s.connections = some c := h
      rw [hc] at h'
      simp at h'
    · intro j b h
      simp only [updThread] at h
      rcases eq_or_ne j i with rfl | hj
      · rw [if_pos rfl] at h
        simp at h
        subst h
        rfl
      · rw [if_neg hj] at h
        have := hJ j b h
        rw [hf] at this
        simp at this
    · intro j k b b' h1 h2
      simp only [updThread] at h1 h2
      rcases eq_or_ne j i with rfl | hj
      · rcases eq_or_ne k j with rfl | hk
        · rfl
        · rw [if_neg hk] at h2
          have := hJ k b' h2
          rw [hf] at this
          simp at this
      · rw [if_neg hj] at h1
        have := hJ j b h1
        rw [hf] at this
        simp at this
    · intro b c h
      have h' : s.resolved b = some (.conn c) := h
      rcases hP b c h' with ⟨c', hcc⟩ | hcon
      · rw [hc] at hcc; simp at hcc
      · rw [hf] at hcon; simp at hcon
    · intro h2
      have h2' : 2 ≤ s.started + 1 := h2
      have h1 : 1 ≤ s.started := by omega
      cases hr0 : s.resolved 0 with
      | none =>
        have := hA 0 h1 hr0
        rw [hf] at this
        simp at this
      | some o =>
        cases o with
        | conn c =>
          rcases hP 0 c hr0 with ⟨c', hcc⟩ | hcon
          · rw [hc] at hcc; simp at hcc
          · rw [hf] at hcon; simp at hcon
        | err e => exact ⟨0, e, by omega, hr0⟩
  | resolve a o ha hr =>
    refine ⟨?_, hB, hFl, hDl, hDf, ?_, ?_, ?_, hJ, hU, ?_, ?_⟩
    · intro b hb hrb
      have hrb' : (if b = a then some o else s.resolved b) = none := hrb
      rcases eq_or_ne b a with rfl | hba
      · rw [if_pos rfl] at hrb'; simp at hrb'
      · rw [if_neg hba] at hrb'; exact hA b hb hrb'
    · intro j b ob h
      have h1 := hE j b ob h
      show (if b = a then some o else s.resolved b) = some ob
      rcases eq_or_ne b a with rfl | hba
      · rw [hr] at h1; simp at h1
      · rw [if_neg hba]; exact h1
    · intro j c h
      obtain ⟨b, hlt, hres⟩ := hF j c h
      refine ⟨b, hlt, ?_⟩
      show (if b = a then some o else s.resolved b) = some (.conn c)
      rcases eq_or_ne b a with rfl | hba
      · rw [hr] at hres; simp at hres
      · rw [if_neg hba]; exact hres
    · intro c h
      obtain ⟨b, hlt, hres⟩ := hG c h
      refine ⟨b, hlt, ?_⟩
      show (if b = a then some o else s.resolved b) = some (.conn c)
      rcases eq_or_ne b a with rfl | hba
      · rw [hr] at hres; simp at hres
      · rw [if_neg hba]; exact hres
    · intro b c h
      have h' : (if b = a then some o else s.resolved b) = some (.conn c) := h
      rcases eq_or_ne b a with rfl | hba
      · exact Or.inr (hA b ha hr)
      · rw [if_neg hba] at h'
        rcases hP b c h' with hl | hcon
        · exact Or.inl hl
        · exact Or.inr hcon
    · intro h2
      have h2' : 2 ≤ s.started := h2
      obtain ⟨b, e, hlt, hres⟩ := hQ h2'
      refine ⟨b, e, hlt, ?_⟩
      show (if b = a then some o else s.resolved b) = some (.err e)
      rcases eq_or_ne b a with rfl | hba
      · rw [hr] at hres; simp at hres
      · rw [if_neg hba]; exact hres
  | leaderOk i a c ht hr =>
    have hca : s.connecting = some a := hJ i a ht
    have haS : a < s.started := (hB a hca).1
    have hNR : ∀ b, b < s.started → s.resolved b = none → False := by
      intro b hb hrb
      have h1 := hA b hb hrb
      rw [hca] at h1
      injection h1 with h1
      subst h1
      rw [hr] at hrb
      simp at hrb
    refine ⟨?_, ?_, ?_, ?_, ?_, ?_, ?_, ?_, ?_, ?_, ?_, hQ⟩
    · intro b hb hrb
      exact (hNR b hb hrb).elim
    · intro b h
      have h' : (none : Option Nat) = some b := h
      simp at h'
    · intro j b h
      simp only [updThread] at h
      rcases eq_or_ne j i with rfl | hj
      · rw [if_pos rfl] at h; simp at h
      · rw [if_neg hj] at h; exact hFl j b h
    · intro j b o h
      simp only [updThread] at h
      rcases eq_or_ne j i with rfl | hj
      · rw [if_pos rfl] at h
        simp at h
        obtain ⟨h1, h2⟩ := h
        rw [← h1]
        exact haS
      · rw [if_neg hj] at h; exact hDl j b o h
    · intro j b o h
      simp only [updThread] at h
      rcases eq_or_ne j i with rfl | hj
      · rw [if_pos rfl] at h; simp at h
      · rw [if_neg hj] at h; exact hDf j b o h
    · intro j b ob h
      simp only [updThread] at h
      rcases eq_or_ne j i with rfl | hj
      · rw [if_pos rfl] at h
        rcases h with h | h
        · simp at h
          obtain ⟨h1, h2⟩ := h
          show s.resolved b = some ob
          rw [← h1, ← h2]
          exact hr
        · simp at h
      · rw [if_neg hj] at h; exact hE j b ob h
    · intro j c' h
      simp only [updThread] at h
      rcases eq_or_ne j i with rfl | hj
      · rw [if_pos rfl] at h; simp at h
      · rw [if_neg hj] at h; exact hF j c' h
    · intro c' h
      have h' : some c = some c' := h
      injection h' with h'
      subst h'
      exact ⟨a, haS, hr⟩
    · intro j b h
      simp only [updThread] at h
      rcases eq_or_ne j i with rfl | hj
      · rw [if_pos rfl] at h; simp at h
      · rw [if_neg hj] at h
        exact absurd (hU j i b a h ht) hj
    · intro j k b b' h1 h2
      simp only [updThread] at h1
      rcases eq_or_ne j i with rfl | hj
      · rw [if_pos rfl] at h1; simp at h1
      · rw [if_neg hj] at h1
        exact absurd (hU j i b a h1 ht) hj
    · intro b c' h
      exact Or.inl ⟨c, rfl⟩
  | leaderErr i a e ht hr =>
    have hca : s.connecting = some a := hJ i a ht
    have haS : a < s.started := (hB a hca).1
    have hcn : s.connections = none := (hB a hca).2
    have hNR : ∀ b, b < s.started → s.resolved b = none → False := by
      intro b hb hrb
      have h1 := hA b hb hrb
      rw [hca] at h1
      injection h1 with h1
      subst h1
      rw [hr] at hrb
      simp at hrb
    refine ⟨?_, ?_, ?_, ?_, ?_, ?_, ?_, ?_, ?_, ?_, ?_, hQ⟩
    · intro b hb hrb
      exact (hNR b hb hrb).elim
    · intro b h
      have h' : (none : Option Nat) = some b := h
      simp at h'
    · intro j b h
      simp only [updThread] at h
      rcases eq_or_ne j i with rfl | hj
      · rw [if_pos rfl] at h; simp at h
      · rw [if_neg hj] at h; exact hFl j b h
    · intro j b o h
      simp only [updThread] at h
      rcases eq_or_ne j i with rfl | hj
      · rw [if_pos rfl] at h
        simp at h
        obtain ⟨h1, h2⟩ := h
        rw [← h1]
        exact haS
      · rw [if_neg hj] at h; exact hDl j b o h
    · intro j b o h
      simp only [updThread] at h
      rcases eq_or_ne j i with rfl | hj
      · rw [if_pos rfl] at h; simp at h
      · rw [if_neg hj] at h; exact hDf j b o h
    · intro j b ob h
      simp only [updThread] at h
      rcases eq_or_ne j i with rfl | hj
      · rw [if_pos rfl] at h
        rcases h with h | h
        · simp at h
          obtain ⟨h1, h2⟩ := h
          show s.resolved b = some ob
          rw [← h1, ← h2]
          exact hr
        · simp at h
      · rw [if_neg hj] at h; exact hE j b ob h
    · intro j c' h
      simp only [updThread] at h
      rcases eq_or_ne j i with rfl | hj
      · rw [if_pos rfl] at h; simp at h
      · rw [if_neg hj] at h; exact hF j c' h
    · intro c' h
      have h' : s.connections = some c' := h
      rw [hcn] at h'
      simp at h'
    · intro j b h
      simp only [updThread] at h
      rcases eq_or_ne j i with rfl | hj
      · rw [if_pos rfl] at h; simp at h
      · rw [if_neg hj] at h
        exact absurd (hU j i b a h ht) hj
    · intro j k b b' h1 h2
      simp only [updThread] at h1
      rcases eq_or_ne j i with rfl | hj
      · rw [if_pos rfl] at h1; simp at h1
      · rw [if_neg hj] at h1
        exact absurd (hU j i b a h1 ht) hj
    · intro b c' h
      have h' : s.resolved b = some (.conn c') := h
      rcases hP b c' h' with ⟨c'', hcc⟩ | hcon
      · rw [hcn] at hcc; simp at hcc
      · rw [hca] at hcon
        injection hcon with hcon
        subst hcon
        rw [hr] at h'
        simp at h'
  | followerDone i a o ht hr =>
    refine ⟨hA, hB, ?_, ?_, ?_, ?_, ?_, hG, ?_, ?_, hP, hQ⟩
    · intro j b h
      simp only [updThread] at h
      rcases eq_or_ne j i with rfl | hj
      · rw [if_pos rfl] at h; simp at h
      · rw [if_neg hj] at h; exact hFl j b h
    · intro j b o' h
      simp only [updThread] at h
      rcases eq_or_ne j i with rfl | hj
      · rw [if_pos rfl] at h; simp at h
      · rw [if_neg hj] at h; exact hDl j b o' h
    · intro j b o' h
      simp only [updThread] at h
      rcases eq_or_ne j i with rfl | hj
      · rw [if_pos rfl] at h
        simp at h
        obtain ⟨h1, h2⟩ := h
        rw [← h1]
        exact hFl j a ht
      · rw [if_neg hj] at h; exact hDf j b o' h
    · intro j b ob h
      simp only [updThread] at h
      rcases eq_or_ne j i with rfl | hj
      · rw [if_pos rfl] at h
        rcases h with h | h
        · simp at h
        · simp at h
          obtain ⟨h1, h2⟩ := h
          show s.resolved b = some ob
          rw [← h1, ← h2]
          exact hr
      · rw [if_neg hj] at h; exact hE j b ob h
    · intro j c' h
      simp only [updThread] at h
      rcases eq_or_ne j i with rfl | hj
      · rw [if_pos rfl] at h; simp at h
      · rw [if_neg hj] at h; exact hF j c' h
    · intro j b h
      simp only [updThread] at h
      rcases eq_or_ne j i with rfl | hj
      · rw [if_pos rfl] at h; simp at h
      · rw [if_neg hj] at h; exact hJ j b h
    · intro j k b b' h1 h2
      simp only [updThread] at h1 h2
      rcases eq_or_ne j i with rfl | hj
      · rw [if_pos rfl] at h1; simp at h1
      · rw [if_neg hj] at h1
        rcases eq_or_ne k i with rfl | hk
        · rw [if_pos rfl] at h2; simp at h2
        · rw [if_neg hk] at h2; exact hU j k b b' h1 h2

theorem reach_dedupInv {s : MState} (h : Reach s) : DedupInv s := by
  induction h with
  | init => exact dedupInv_init
  | step hr hs ih => exact dedupInv_step hs ih

/-- C1: for a tenant key, across any interleaving of `getConnection` callers,
at most one connection-establishment attempt is unresolved at a time; if no
attempt ever failed, at most one connect operation has begun (so concurrent
callers issued before the first completes share exactly one connect); every
finished caller's outcome is its attempt's settled outcome, so callers joined
to the same attempt receive the same connection or the same propagated error,
and while only one attempt exists all finished callers agree; the cache only
ever holds a successfully established connection; and once a connection is
cached, any caller that completes its call in one step does so as a cache hit
returning that connection, with no new connect operation begun. -/
theorem C1_getConnection_dedup (s : MState) (hreach : Reach s) :
    (∀ a b, a < s.started → b < s.started →
       s.resolved a = none → s.resolved b = none → a = b) ∧
    ((∀ a e, s.resolved a ≠ some (.err e)) → s.started ≤ 1) ∧
    (∀ i j a o o',
       (s.threads i = .doneLeader a o ∨ s.threads i = .doneFollower a o) →
       (s.threads j = .doneLeader a o' ∨ s.threads j = .doneFollower a o') → o = o') ∧
    (s.started ≤ 1 → ∀ i j r r',
       resultOf (s.threads i) = some r → resultOf (s.threads j) = some r' → r = r') ∧
    (∀ c, s.connections = some c → ∃ a, a < s.started ∧ s.resolved a = some (.conn c)) ∧
    (∀ s' i c, Step s s' → s.connections = some c → s.threads i = .ready →
       s'.threads i ≠ .ready →
       s'.threads i = .doneCache c ∧ s'.started = s.started ∧ s'.connections = some c) := by
  obtain ⟨hA, hB, hFl, hDl, hDf, hE, hF, hG, hJ, hU, hP, hQ⟩ := reach_dedupInv hreach
  refine ⟨?_, ?_, ?_, ?_, hG, ?_⟩
  · intro a b ha hb hra hrb
    have h1 := hA a ha hra
    have h2 := hA b hb hrb
    rw [h1] at h2
    injection h2
  · intro hne
    by_contra hgt
    push_neg at hgt
    obtain ⟨a, e, _, hres⟩ := hQ (by omega)
    exact hne a e hres
  · intro i j a o o' h1 h2
    have e1 := hE i a o h1
    have e2 := hE j a o' h2
    rw [e1] at e2
    injection e2
  · intro h1 i j r r' hri hrj
    have key : ∀ k r₀, resultOf (s.threads k) = some r₀ → s.resolved 0 = some r₀ := by
      intro k r₀ hk
      cases htk : s.threads k with
      | ready => rw [htk] at hk; simp [resultOf] at hk
      | waitingLeader a => rw [htk] at hk; simp [resultOf] at hk
      | waitingFollower a => rw [htk] at hk; simp [resultOf] at hk
      | doneCache c =>
        rw [htk] at hk
        simp [resultOf] at hk
        obtain ⟨a, ha, hres⟩ := hF k c htk
        have ha0 : a = 0 := by omega
        subst ha0
        rw [← hk]
        exact hres
      | doneLeader a o =>
        rw [htk] at hk
        simp [resultOf] at hk
        have ha := hDl k a o htk
        have ha0 : a = 0 := by omega
        subst ha0
        rw [← hk]
        exact hE k 0 o (Or.inl htk)
      | doneFollower a o =>
        rw [htk] at hk
        simp [resultOf] at hk
        have ha := hDf k a o htk
        have ha0 : a = 0 := by omega
        subst ha0
        rw [← hk]
        exact hE k 0 o (Or.inr htk)
    have k1 := key i r hri
    have k2 := key j r' hrj
    rw [k1] at k2
    injection k2
  · intro s' i c hstep hc hready hne
    cases hstep with
    | hitCache i₀ c₀ ht₀ hc₀ =>
      by_cases hii : i = i₀
      · subst hii
        rw [hc₀] at hc
        injection hc with hcc
        subst hcc
        exact ⟨updThread_self _ _ _, rfl, hc₀⟩
      · have hsame : ({s with threads := updThread s.threads i₀ (.doneCache c₀)}).threads i
            = s.threads i := by
          show updThread s.threads i₀ (.doneCache c₀) i = s.threads i
          simp [updThread, hii]
        rw [hsame, hready] at hne
        exact absurd rfl hne
    | joinFollower i₀ a₀ ht₀ hc₀ hf₀ =>
      rw [hc₀] at hc
      simp at hc
    | startLeader i₀ ht₀ hc₀ hf₀ =>
      rw [hc₀] at hc
      simp at hc
    | resolve a₀ o₀ ha₀ hr₀ =>
      exact absurd hready hne
    | leaderOk i₀ a₀ c₀ ht₀ hr₀ =>
      have := (hB a₀ (hJ i₀ a₀ ht₀)).2
      rw [this] at hc
      simp at hc
    | leaderErr i₀ a₀ e₀ ht₀ hr₀ =>
      have := (hB a₀ (hJ i₀ a₀ ht₀)).2
      rw [this] at hc
      simp at hc
    | followerDone i₀ a₀ o₀ ht₀ hr₀ =>
      by_cases hii : i = i₀
      · subst hii
        rw [hready] at ht₀
        simp at ht₀
      · have hsame : ({s with threads := updThread s.threads i₀ (.doneFollower a₀ o₀)}).threads i
            = s.threads i := by
          show updThread s.threads i₀ (.doneFollower a₀ o₀) i = s.threads i
          simp [updThread, hii]
        rw [hsame, hready] at hne
        exact absurd rfl hne

/-- Witness for C1: after the concrete trace `start attempt 0, settle it with
connection 5, leader caches it`, the cached connection indeed stems from a
begun and successfully settled attempt. -/
theorem C1_getConnection_dedup_witness :
    ∃ a, a < exS3.started ∧ exS3.resolved a = some (.conn 5) :=
  (C1_getConnection_dedup exS3
    (Reach.step (Reach.step (Reach.step Reach.init
      (Step.startLeader initState 0 rfl rfl rfl))
      (Step.resolve exS1 0 (.conn 5) (by decide) rfl))
      (Step.leaderOk exS2 0 0 5 rfl rfl))).2.2.2.2.1 5 rfl

/-! ## Theorems: database-name derivation (C6) -/

/-- C6 counterexample: for the tenant id `organization:acme` the provisioning
path strips the `organization:` tag before prepending `org_`, while
`getOrganizationDatabase` prepends `org_` to the id unchanged, so the two
derivations address different databases. -/
theorem C6_counterexample :
    provisionDatabaseName "organization:acme" = "org_acme" ∧
    getOrganizationDatabaseName "organization:acme" = "org_organization:acme" ∧
    provisionDatabaseName "organization:acme" ≠
      getOrganizationDatabaseName "organization:acme" := by
  refine ⟨by decide, rfl, by decide⟩

/-- C6 amended: the two derivations agree exactly on tenant ids that do not
carry the `organization:` tag (both produce `org_` + id); in general the
provisioning path derives the name of the *stripped* id, which is what
`getOrganizationDatabase` would derive when handed the stripped id. -/
theorem C6_database_name_derivation_amended (t : String)
    (h : isPrefList "organization:".data t.data = false) :
    provisionDatabaseName t = getOrganizationDatabaseName t ∧
    (∀ u : String, provisionDatabaseName u = getOrganizationDatabaseName (cleanOrg u)) := by
  constructor
  · unfold provisionDatabaseName getOrganizationDatabaseName cleanOrg
    rw [h]
    simp
  · intro u
    rfl

/-- C6 witness: for the untagged id `acme` both derivations give `org_acme`. -/
theorem C6_database_name_derivation_amended_witness :
    provisionDatabaseName "acme" = getOrganizationDatabaseName "acme" :=
  (C6_database_name_derivation_amended "acme" (by decide)).1

/-! ## Theorems: provisioning outcome recording (C2) and validation (C3) -/

/-- C2 counterexample: provisioning succeeds, but the write recording the
`completed` status fails; the claim says the attempt still reports success,
yet `setupOrganizationDatabase` reports failure (the `completed`-status write
sits inside the outer try, `setup.service.ts` line 56, so its failure is
caught as a provisioning failure). -/
theorem C2_counterexample :
    (setupOrganizationDatabase "org1" "retail" "2026-01-01T00:00:00.000Z"
      { readSchema := .ok "DEFINE DATABASE __DATABASE_NAME__;",
        postResult := .ok (),
        metaCompleted := { mainDb := .ok (), readMeta := .ok none,
                           writeRes := .error "metadata write failed" },
        metaFailed := { mainDb := .ok (), readMeta := .ok none,
                        writeRes := .ok () } }).1.success = false ∧
    (setupOrganizationDatabase "org1" "retail" "2026-01-01T00:00:00.000Z"
      { readSchema := .ok "DEFINE DATABASE __DATABASE_NAME__;",
        postResult := .ok (),
        metaCompleted := { mainDb := .ok (), readMeta := .ok none,
                           writeRes := .error "metadata write failed" },
        metaFailed := { mainDb := .ok (), readMeta := .ok none,
                        writeRes := .ok () } }).1.error = some "metadata write failed" := by
  constructor
  · rfl
  · rfl

/-- C2 amended: a *failed* provisioning attempt returns the original
provisioning error whatever both status writes do (the `failed`-status write
is isolated, `setup.service.ts` lines 77-93); but a failure writing the
`completed` status after successful provisioning is *not* isolated: it is
caught by the outer catch, a `failed` status is then recorded, and the
attempt reports failure carrying the recording error; only when both
provisioning and the `completed` write succeed does the attempt report
success. -/
theorem C2_recording_isolation_amended
    (organizationId organizationType timestamp : String) (o : SetupOracle)
    (hvalid : organizationType = "retail" ∨ organizationType = "restaurant") :
    (∀ e, (createOrganizationDatabase (cleanOrg organizationId) o.readSchema o.postResult).1
        = .error e →
      (setupOrganizationDatabase organizationId organizationType timestamp o).1.success = false ∧
      (setupOrganizationDatabase organizationId organizationType timestamp o).1.error = some e) ∧
    ((createOrganizationDatabase (cleanOrg organizationId) o.readSchema o.postResult).1
        = .ok () →
      ∀ m, (updateOrganizationMetadata organizationId
          (completedPatch (cleanOrg organizationId) timestamp organizationType)
          o.metaCompleted).1 = .error m →
      (setupOrganizationDatabase organizationId organizationType timestamp o).1.success = false ∧
      (setupOrganizationDatabase organizationId organizationType timestamp o).1.error = some m) ∧
    ((createOrganizationDatabase (cleanOrg organizationId) o.readSchema o.postResult).1
        = .ok () →
      (updateOrganizationMetadata organizationId
          (completedPatch (cleanOrg organizationId) timestamp organizationType)
          o.metaCompleted).1 = .ok () →
      (setupOrganizationDatabase organizationId organizationType timestamp o).1.success = true ∧
      (setupOrganizationDatabase organizationId organizationType timestamp o).1.error = none) := by
  have hcond : ¬(organizationType ≠ "retail" ∧ organizationType ≠ "restaurant") := by
    rcases hvalid with h | h <;> simp [h]
  refine ⟨?_, ?_, ?_⟩
  · intro e hcr
    rcases hcc : createOrganizationDatabase (cleanOrg organizationId) o.readSchema o.postResult
      with ⟨cr, eff1⟩
    rw [hcc] at hcr
    simp at hcr
    subst hcr
    simp [setupOrganizationDatabase, hcond, hcc, setupCatch]
  · intro hcr m hum
    rcases hcc : createOrganizationDatabase (cleanOrg organizationId) o.readSchema o.postResult
      with ⟨cr, eff1⟩
    rw [hcc] at hcr
    simp at hcr
    subst hcr
    rcases huu : updateOrganizationMetadata organizationId
        (completedPatch (cleanOrg organizationId) timestamp organizationType) o.metaCompleted
      with ⟨ur, eff2⟩
    rw [huu] at hum
    simp at hum
    subst hum
    simp [setupOrganizationDatabase, hcond, hcc, huu, setupCatch]
  · intro hcr huc
    rcases hcc : createOrganizationDatabase (cleanOrg organizationId) o.readSchema o.postResult
      with ⟨cr, eff1⟩
    rw [hcc] at hcr
    simp at hcr
    subst hcr
    rcases huu : updateOrganizationMetadata organizationId
        (completedPatch (cleanOrg organizationId) timestamp organizationType) o.metaCompleted
      with ⟨ur, eff2⟩
    rw [huu] at huc
    simp at huc
    subst huc
    simp [setupOrganizationDatabase, hcond, hcc, huu]

/-- C2 witness: a failed provisioning attempt whose `failed`-status write also
fails still returns the original provisioning error. -/
theorem C2_recording_isolation_amended_witness :
    (setupOrganizationDatabase "org1" "retail" "2026-01-01T00:00:00.000Z"
      { readSchema := .ok "DEFINE DATABASE __DATABASE_NAME__;",
        postResult := .error "connect refused",
        metaCompleted := { mainDb := .ok (), readMeta := .ok none, writeRes := .ok () },
        metaFailed := { mainDb := .ok (), readMeta := .ok none,
                        writeRes := .error "status write failed" } }).1.success = false ∧
    (setupOrganizationDatabase "org1" "retail" "2026-01-01T00:00:00.000Z"
      { readSchema := .ok "DEFINE DATABASE __DATABASE_NAME__;",
        postResult := .error "connect refused",
        metaCompleted := { mainDb := .ok (), readMeta := .ok none, writeRes := .ok () },
        metaFailed := { mainDb := .ok (), readMeta := .ok none,
                        writeRes := .error "status write failed" } }).1.error
      = some "connect refused" :=
  C2_recording_isolation_amended "org1" "retail" "2026-01-01T00:00:00.000Z"
    { readSchema := .ok "DEFINE DATABASE __DATABASE_NAME__;",
      postResult := .error "connect refused",
      metaCompleted := { mainDb := .ok (), readMeta := .ok none, writeRes := .ok () },
      metaFailed := { mainDb := .ok (), readMeta := .ok none,
                      writeRes := .error "status write failed" } }
    (Or.inl rfl) |>.1 "connect refused" rfl

/-- Helper: the status-recording step never issues an administrative
schema-execution call — its network calls are the control-tenant read and
write only. -/
theorem adminExec_not_in_updateMeta (id : String) (p : JObj) (mo : MetaOracle)
    (ns db script : String) :
    NetEffect.adminSchemaExec ns db script ∉ (updateOrganizationMetadata id p mo).2 := by
  unfold updateOrganizationMetadata
  rcases mo with ⟨mdb, rm, wr⟩
  rcases mdb with e | u <;> rcases rm with e2 | v <;> rcases wr with e3 | u3 <;> simp

/-- C3 counterexample: with an invalid tenant type the call is rejected
before the administrative call, but the catch path still records a `failed`
status in the control tenant — two network calls (read and write) — whereas
the claim says no network I/O of any kind occurs. -/
theorem C3_counterexample :
    (setupOrganizationDatabase "acme" "bogus" "2026-01-01T00:00:00.000Z"
      { readSchema := .ok "DEFINE DATABASE __DATABASE_NAME__;",
        postResult := .ok (),
        metaCompleted := { mainDb := .ok (), readMeta := .ok none, writeRes := .ok () },
        metaFailed := { mainDb := .ok (), readMeta := .ok none,
                        writeRes := .ok () } }).2.length = 2 ∧
    (setupOrganizationDatabase "acme" "bogus" "2026-01-01T00:00:00.000Z"
      { readSchema := .ok "DEFINE DATABASE __DATABASE_NAME__;",
        postResult := .ok (),
        metaCompleted := { mainDb := .ok (), readMeta := .ok none, writeRes := .ok () },
        metaFailed := { mainDb := .ok (), readMeta := .ok none,
                        writeRes := .ok () } }).1.error = some (invalidTypeMsg "bogus") := by
  constructor
  · rfl
  · rfl

/-- C3 amended: for a tenant type outside `{retail, restaurant}` the call
fails with the `invalid tenant type` error and the administrative
schema-execution call is never issued; however, the rejection is *not* free
of network I/O — the catch path attempts to record a `failed` status, so the
attempted network calls are exactly those of that status-recording step. -/
theorem C3_invalid_type_amended (organizationId organizationType timestamp : String)
    (o : SetupOracle) (h1 : organizationType ≠ "retail")
    (h2 : organizationType ≠ "restaurant") :
    (setupOrganizationDatabase organizationId organizationType timestamp o).1.success = false ∧
    (setupOrganizationDatabase organizationId organizationType timestamp o).1.error
      = some (invalidTypeMsg organizationType) ∧
    (setupOrganizationDatabase organizationId organizationType timestamp o).2
      = (updateOrganizationMetadata organizationId
          (failedPatch (invalidTypeMsg organizationType) timestamp) o.metaFailed).2 ∧
    (∀ ns db script, NetEffect.adminSchemaExec ns db script ∉
      (setupOrganizationDatabase organizationId organizationType timestamp o).2) := by
  have hstep : setupOrganizationDatabase organizationId organizationType timestamp o
      = setupCatch organizationId organizationType timestamp
          (invalidTypeMsg organizationType) [] o := by
    unfold setupOrganizationDatabase
    rw [if_pos ⟨h1, h2⟩]
  rw [hstep]
  refine ⟨rfl, rfl, ?_, ?_⟩
  · show ([] : List NetEffect) ++ _ = _
    simp [setupCatch]
  · intro ns db script hmem
    have : NetEffect.adminSchemaExec ns db script ∈
        (updateOrganizationMetadata organizationId
          (failedPatch (invalidTypeMsg organizationType) timestamp) o.metaFailed).2 := by
      simpa [setupCatch] using hmem
    exact adminExec_not_in_updateMeta _ _ _ _ _ _ this

/-- C3 witness: concrete invalid tenant type `bogus`. -/
theorem C3_invalid_type_amended_witness :
    (setupOrganizationDatabase "acme" "bogus" "2026-01-01T00:00:00.000Z"
      { readSchema := .ok "S", postResult := .ok (),
        metaCompleted := { mainDb := .ok (), readMeta := .ok none, writeRes := .ok () },
        metaFailed := { mainDb := .ok (), readMeta := .ok none,
                        writeRes := .ok () } }).1.success = false ∧
    (setupOrganizationDatabase "acme" "bogus" "2026-01-01T00:00:00.000Z"
      { readSchema := .ok "S", postResult := .ok (),
        metaCompleted := { mainDb := .ok (), readMeta := .ok none, writeRes := .ok () },
        metaFailed := { mainDb := .ok (), readMeta := .ok none,
                        writeRes := .ok () } }).1.error = some (invalidTypeMsg "bogus") :=
  ⟨(C3_invalid_type_amended "acme" "bogus" "2026-01-01T00:00:00.000Z"
      { readSchema := .ok "S", postResult := .ok (),
        metaCompleted := { mainDb := .ok (), readMeta := .ok none, writeRes := .ok () },
        metaFailed := { mainDb := .ok (), readMeta := .ok none, writeRes := .ok () } }
      (by decide) (by decide)).1,
   (C3_invalid_type_amended "acme" "bogus" "2026-01-01T00:00:00.000Z"
      { readSchema := .ok "S", postResult := .ok (),
        metaCompleted := { mainDb := .ok (), readMeta := .ok none, writeRes := .ok () },
        metaFailed := { mainDb := .ok (), readMeta := .ok none, writeRes := .ok () } }
      (by decide) (by decide)).2.1⟩

/-! ## Theorems: setup status check (C5, C8) and existence check (C10) -/

/-- C8: when the control-tenant record is absent (query succeeds with no
rows), `checkOrganizationSetup` returns normally — the model is a total
function into `CheckResult`, so nothing is thrown — with `isSetup = false`,
status `pending` and the `Organization not found` error string. -/
theorem C8_checkSetup_not_found (connections : List String) (organizationId : String)
    (o : CheckOracle) (hm : o.mainDb = .ok ()) (hr : o.rows = .ok []) :
    checkOrganizationSetup connections organizationId o =
      { isSetup := false, database := .str ("org_" ++ cleanOrg organizationId),
        status := .str "pending", error := some (.str "Organization not found"),
        metadata := none } := by
  simp [checkOrganizationSetup, hm, hr]

/-- C8 witness: concrete absent record. -/
theorem C8_checkSetup_not_found_witness :
    checkOrganizationSetup [] "acme"
      { mainDb := .ok (), rows := .ok [],
        existsOracle := { connect := .ok (), queryInfo := .ok [] } } =
      { isSetup := false, database := .str "org_acme",
        status := .str "pending", error := some (.str "Organization not found"),
        metadata := none } :=
  C8_checkSetup_not_found [] "acme"
    { mainDb := .ok (), rows := .ok [],
      existsOracle := { connect := .ok (), queryInfo := .ok [] } } rfl rfl

/-- C5: for a tenant whose control record exists (query succeeds with a first
row), (a) if the existence check reports false the result is `pending` with
`isSetup = false` regardless of the stored status; (b) if the existence check
reports true and the record carries a `setup` object whose `setupStatus` is
one of the three status strings, that stored status is returned (and
`isSetup` is exactly `setupStatus = completed`); (c) if the existence check
reports true and no `setup` object was recorded, the result is `completed`
with `isSetup = true`. -/
theorem C5_checkSetup_status (connections : List String) (organizationId : String)
    (o : CheckOracle) (row : OrgRow) (rest : List OrgRow)
    (hm : o.mainDb = .ok ()) (hr : o.rows = .ok (row :: rest)) :
    ((checkOrganizationDatabaseExists connections (cleanOrg organizationId) o.existsOracle).1
        = false →
      (checkOrganizationSetup connections organizationId o).isSetup = false ∧
      (checkOrganizationSetup connections organizationId o).status = .str "pending") ∧
    (∀ setupObj st,
      (checkOrganizationDatabaseExists connections (cleanOrg organizationId) o.existsOracle).1
        = true →
      metadataSetup row.metadata = some (.obj setupObj) →
      objGet setupObj "setupStatus" = some (.str st) →
      st ∈ ["pending", "completed", "failed"] →
      (checkOrganizationSetup connections organizationId o).status = .str st ∧
      (checkOrganizationSetup connections organizationId o).isSetup = decide (st = "completed")) ∧
    ((checkOrganizationDatabaseExists connections (cleanOrg organizationId) o.existsOracle).1
        = true →
      metadataSetup row.metadata = none →
      (checkOrganizationSetup connections organizationId o).isSetup = true ∧
      (checkOrganizationSetup connections organizationId o).status = .str "completed") := by
  refine ⟨?_, ?_, ?_⟩
  · intro hdb
    simp [checkOrganizationSetup, hm, hr, hdb]
  · intro setupObj st hdb hsetup hstatus hmem
    have hne : st ≠ "" := by
      simp at hmem
      rcases hmem with rfl | rfl | rfl <;> decide
    have htruthy : jsTruthyOpt (metadataSetup row.metadata) = true := by
      rw [hsetup]
      simp [jsTruthyOpt, jsFalsy]
    simp only [checkOrganizationSetup, hm, hr, hdb, htruthy]
    rw [hsetup]
    simp [hstatus, jsOrVal, jsFalsy, hne, jsStrictEqStr, getFieldJs]
  · intro hdb hsetup
    have htruthy : jsTruthyOpt (metadataSetup row.metadata) = false := by
      rw [hsetup]
      rfl
    simp [checkOrganizationSetup, hm, hr, hdb, htruthy]

/-- C5 witness: three concrete scenarios — stale `completed` record without a
real database yields `pending`; existing database with stored `failed` yields
`failed`; existing database with no recorded setup object yields `completed`. -/
theorem C5_checkSetup_status_witness :
    ((checkOrganizationSetup [] "acme"
      { mainDb := .ok (),
        rows := .ok
          [{ id := "organization:acme",
             metadata := some (.obj [("setup", .obj [("setupStatus", .str "completed")])]) }],
        existsOracle := { connect := .error "refused", queryInfo := .error "refused" } }).isSetup
        = false ∧
     (checkOrganizationSetup [] "acme"
      { mainDb := .ok (),
        rows := .ok
          [{ id := "organization:acme",
             metadata := some (.obj [("setup", .obj [("setupStatus", .str "completed")])]) }],
        existsOracle := { connect := .error "refused", queryInfo := .error "refused" } }).status
        = .str "pending") ∧
    ((checkOrganizationSetup ["needexcel_organization:org_acme"] "acme"
      { mainDb := .ok (),
        rows := .ok
          [{ id := "organization:acme",
             metadata := some (.obj [("setup", .obj [("setupStatus", .str "failed")])]) }],
        existsOracle := { connect := .ok (), queryInfo := .ok [] } }).status
        = .str "failed") ∧
    ((checkOrganizationSetup ["needexcel_organization:org_acme"] "acme"
      { mainDb := .ok (),
        rows := .ok [{ id := "organization:acme", metadata := none }],
        existsOracle := { connect := .ok (), queryInfo := .ok [] } }).isSetup = true) :=
  ⟨(C5_checkSetup_status [] "acme"
      { mainDb := .ok (),
        rows := .ok
          [{ id := "organization:acme",
             metadata := some (.obj [("setup", .obj [("setupStatus", .str "completed")])]) }],
        existsOracle := { connect := .error "refused", queryInfo := .error "refused" } }
      { id := "organization:acme",
        metadata := some (.obj [("setup", .obj [("setupStatus", .str "completed")])]) }
      [] rfl rfl).1 rfl,
   ((C5_checkSetup_status ["needexcel_organization:org_acme"] "acme"
      { mainDb := .ok (),
        rows := .ok
          [{ id := "organization:acme",
             metadata := some (.obj [("setup", .obj [("setupStatus", .str "failed")])]) }],
        existsOracle := { connect := .ok (), queryInfo := .ok [] } }
      { id := "organization:acme",
        metadata := some (.obj [("setup", .obj [("setupStatus", .str "failed")])]) }
      [] rfl rfl).2.1 [("setupStatus", .str "failed")] "failed" rfl rfl rfl (by simp)).1,
   ((C5_checkSetup_status ["needexcel_organization:org_acme"] "acme"
      { mainDb := .ok (),
        rows := .ok [{ id := "organization:acme", metadata := none }],
        existsOracle := { connect := .ok (), queryInfo := .ok [] } }
      { id := "organization:acme", metadata := none }
      [] rfl rfl).2.2 rfl rfl).1⟩

/-- C10: the existence check is a total boolean report — a cached pooled
connection for the derived key yields `true` with no network call attempted;
otherwise a failed connection or a failed introspection query yields `false`
(errors are absorbed, never propagated — the model's return type carries no
error case), a successful non-empty introspection yields `true`, and a
successful empty one yields `false`. -/
theorem C10_databaseExists_report (connections : List String) (orgId : String)
    (o : ExistsOracle) :
    (connections.contains ("needexcel_organization:" ++ ("org_" ++ orgId)) = true →
      checkOrganizationDatabaseExists connections orgId o = (true, [])) ∧
    (connections.contains ("needexcel_organization:" ++ ("org_" ++ orgId)) = false →
      (∀ e, o.connect = .error e →
        (checkOrganizationDatabaseExists connections orgId o).1 = false) ∧
      (∀ e, o.connect = .ok () → o.queryInfo = .error e →
        (checkOrganizationDatabaseExists connections orgId o).1 = false) ∧
      (∀ rows, o.connect = .ok () → o.queryInfo = .ok rows → rows ≠ [] →
        (checkOrganizationDatabaseExists connections orgId o).1 = true) ∧
      (∀ rows, o.connect = .ok () → o.queryInfo = .ok rows → rows = [] →
        (checkOrganizationDatabaseExists connections orgId o).1 = false)) := by
  constructor
  · intro hc
    simp only [checkOrganizationDatabaseExists]
    rw [hc]
    simp
  · intro hc
    refine ⟨?_, ?_, ?_, ?_⟩
    · intro e he
      simp only [checkOrganizationDatabaseExists]
      rw [hc, he]
      simp
    · intro e hok he
      simp only [checkOrganizationDatabaseExists]
      rw [hc, hok, he]
      simp
    · intro rows hok hq hne
      simp only [checkOrganizationDatabaseExists]
      rw [hc, hok, hq]
      simp
      exact List.length_pos.mpr hne
    · intro rows hok hq hnil
      subst hnil
      simp only [checkOrganizationDatabaseExists]
      rw [hc, hok, hq]
      simp

/-- C10 witness: cached key returns true with an empty effect trace; a failed
connection attempt returns false. -/
theorem C10_databaseExists_report_witness :
    checkOrganizationDatabaseExists ["needexcel_organization:org_acme"] "acme"
      { connect := .ok (), queryInfo := .ok [] } = (true, []) ∧
    (checkOrganizationDatabaseExists [] "acme"
      { connect := .error "refused", queryInfo := .error "refused" }).1 = false :=
  ⟨(C10_databaseExists_report ["needexcel_organization:org_acme"] "acme"
      { connect := .ok (), queryInfo := .ok [] }).1 (by decide),
   ((C10_databaseExists_report [] "acme"
      { connect := .error "refused", queryInfo := .error "refused" }).2 (by decide)).1
      "refused" rfl⟩

/-! ## Theorems: metadata merge (C4) and serialization (C7) -/

/-- Lookup distributes over list append, preferring the left part. -/
theorem objGet_append (xs ys : JObj) (k : String) :
    objGet (xs ++ ys) k = match objGet xs k with
      | some v => some v
      | none => objGet ys k := by
  induction xs with
  | nil => simp [objGet]
  | cons p rest ih =>
    rcases p with ⟨k', v⟩
    by_cases hk : k' = k
    · subst hk
      simp [objGet]
    · simp [objGet, hk, ih]

/-- Filtering away the keys of `b` leaves lookups outside `b` unchanged. -/
theorem objGet_filter_of_none (a b : JObj) (k : String) (h : objGet b k = none) :
    objGet (a.filter fun p => (objGet b p.1).isNone) k = objGet a k := by
  induction a with
  | nil => rfl
  | cons p rest ih =>
    rcases p with ⟨k', v⟩
    by_cases hk : k' = k
    · subst hk
      simp [List.filter_cons, h, objGet]
    · cases hval : (objGet b k').isNone <;>
        simp [List.filter_cons, hval, objGet, hk, ih]

/-- Filtering away the keys of `b` removes every entry whose key is in `b`. -/
theorem objGet_filter_of_some (a b : JObj) (k : String) {v : JVal}
    (h : objGet b k = some v) :
    objGet (a.filter fun p => (objGet b p.1).isNone) k = none := by
  induction a with
  | nil => rfl
  | cons p rest ih =>
    rcases p with ⟨k', w⟩
    by_cases hk : k' = k
    · subst hk
      simp [List.filter_cons, h, objGet, ih]
    · cases hval : (objGet b k').isNone <;>
        simp [List.filter_cons, hval, objGet, hk, ih]

/-- Spread lookup semantics: keys of `b` win, `a` provides the rest. -/
theorem objGet_spread (a b : JObj) (k : String) :
    objGet (spread a b) k = match objGet b k with
      | some v => some v
      | none => objGet a k := by
  unfold spread
  rw [objGet_append]
  cases hb : objGet b k with
  | some v =>
    rw [objGet_filter_of_some a b k hb]
  | none =>
    rw [objGet_filter_of_none a b k hb]
    cases objGet a k <;> simp [hb]

/-- C4: merging a setup patch into an existing metadata object keeps every
top-level key other than `setup` bound to its old value (in both directions:
a key is present in the merged object if and only if it was present before),
and rebinds `setup` to the shallow merge of the existing `setup` sub-object
(empty if absent) with the patch, where the patch wins on key conflicts. -/
theorem C4_metadata_merge (m patch s₀ : JObj)
    (hsetup : objGet m "setup" = some (.obj s₀) ∨
      (objGet m "setup" = none ∧ s₀ = [])) :
    (∀ k, k ≠ "setup" →
      objGet (mergedMetadata (some (.obj m)) patch) k = objGet m k) ∧
    objGet (mergedMetadata (some (.obj m)) patch) "setup"
      = some (.obj (spread s₀ patch)) ∧
    (∀ k, objGet (spread s₀ patch) k = match objGet patch k with
      | some v => some v
      | none => objGet s₀ k) := by
  have hmm : mergedMetadata (some (.obj m)) patch
      = spread m [("setup", JVal.obj (spread s₀ patch))] := by
    rcases hsetup with h | ⟨h, rfl⟩ <;>
      simp [mergedMetadata, orEmptyObj, getFieldJs, jsFalsy, jsSpreadFields, h]
  refine ⟨?_, ?_, fun k => objGet_spread s₀ patch k⟩
  · intro k hk
    rw [hmm, objGet_spread]
    simp [objGet, Ne.symm hk]
  · rw [hmm, objGet_spread]
    simp [objGet]

/-- C4 witness: a record with an unrelated `name` key and a stale failed
setup keeps `name` untouched while the patch overwrites `setupStatus`. -/
theorem C4_metadata_merge_witness :
    objGet (mergedMetadata
        (some (.obj [("name", .str "Acme"),
                     ("setup", .obj [("setupStatus", .str "failed")])]))
        [("setupStatus", .str "completed"), ("setupTimestamp", .str "T1")]) "name"
      = some (.str "Acme") ∧
    objGet (spread [("setupStatus", .str "failed")]
        [("setupStatus", .str "completed"), ("setupTimestamp", .str "T1")]) "setupStatus"
      = some (.str "completed") := by
  constructor
  · exact (C4_metadata_merge
      [("name", .str "Acme"), ("setup", .obj [("setupStatus", .str "failed")])]
      [("setupStatus", .str "completed"), ("setupTimestamp", .str "T1")]
      [("setupStatus", .str "failed")] (Or.inl rfl)).1 "name" (by decide)
  · rw [(C4_metadata_merge
      [("name", .str "Acme"), ("setup", .obj [("setupStatus", .str "failed")])]
      [("setupStatus", .str "completed"), ("setupTimestamp", .str "T1")]
      [("setupStatus", .str "failed")] (Or.inl rfl)).2.2 "setupStatus"]
    rfl

/-- C7: whatever value the control-tenant write receives for the metadata
field is the JSON string serialization of the merged metadata object — a
string value, not the object itself. -/
theorem C7_metadata_written_as_string (organizationId : String) (patch : JObj)
    (o : MetaOracle) (curVal : Option JVal)
    (hmain : o.mainDb = .ok ()) (hread : o.readMeta = .ok curVal) :
    ∀ rid v, NetEffect.controlWrite rid v ∈
        (updateOrganizationMetadata organizationId patch o).2 →
      v = .str (jsonStringify (.obj (mergedMetadata curVal patch))) := by
  intro rid v hv
  rcases hw : o.writeRes with e | u <;>
  · simp only [updateOrganizationMetadata, hmain, hread, hw] at hv
    simp at hv
    exact hv.2

/-- C7 witness: the value handed to the control-tenant write for a concrete
record and patch is the concrete JSON string of the merged object. -/
theorem C7_metadata_written_as_string_witness :
    JVal.str "\x7b\"a\":\"b\",\"setup\":\x7b\"setupStatus\":\"completed\"\x7d\x7d"
      = .str (jsonStringify (.obj (mergedMetadata (some (.obj [("a", .str "b")]))
          [("setupStatus", .str "completed")]))) :=
  C7_metadata_written_as_string "o1" [("setupStatus", .str "completed")]
    { mainDb := .ok (), readMeta := .ok (some (.obj [("a", .str "b")])), writeRes := .ok () }
    (some (.obj [("a", .str "b")])) rfl rfl "organization:o1"
    (JVal.str "\x7b\"a\":\"b\",\"setup\":\x7b\"setupStatus\":\"completed\"\x7d\x7d")
    (List.Mem.tail _ (List.Mem.head _))

/-! ## Theorems: placeholder substitution (C9) -/

/-- Agreement of `isPrefList` with the prefix decomposition. -/
theorem isPrefList_iff (p : List Char) : ∀ l, isPrefList p l = true ↔ ∃ t, l = p ++ t := by
  induction p with
  | nil =>
    intro l
    simp [isPrefList]
  | cons a as ih =>
    intro l
    rcases l with _ | ⟨b, bs⟩
    · simp [isPrefList]
    · simp only [isPrefList]
      by_cases hab : a = b
      · subst hab
        rw [if_pos rfl, ih bs]
        constructor
        · rintro ⟨t, rfl⟩
          exact ⟨t, rfl⟩
        · rintro ⟨t, ht⟩
          injection ht with h1 h2
          exact ⟨t, h2⟩
      · rw [if_neg hab]
        constructor
        · intro hfalse
          simp at hfalse
        · rintro ⟨t, ht⟩
          injection ht with h1 h2
          exact absurd h1.symm hab

/-- A pattern that occurs as a prefix is no longer than the text. -/
theorem isPrefList_le_length (p l : List Char) (h : isPrefList p l = true) :
    p.length ≤ l.length := by
  obtain ⟨t, rfl⟩ := (isPrefList_iff p l).mp h
  simp

/-- A prefix of `a` is a prefix of `a ++ b`. -/
theorem isPrefList_append_right (p a b : List Char) (h : isPrefList p a = true) :
    isPrefList p (a ++ b) = true := by
  obtain ⟨t, rfl⟩ := (isPrefList_iff p a).mp h
  exact (isPrefList_iff p _).mpr ⟨t ++ b, by simp⟩

/-- A non-empty pattern does not occur in the empty text. -/
theorem containsSeq_nil (pat : List Char) (h : pat ≠ []) : containsSeq pat [] = false := by
  rcases pat with _ | ⟨a, as⟩
  · exact absurd rfl h
  · rfl

/-- One-step unfolding of the occurrence test. -/
theorem containsSeq_cons (pat : List Char) (c : Char) (p : List Char) :
    containsSeq pat (c :: p)
      = if isPrefList pat (c :: p) = true then true else containsSeq pat p := rfl

/-- One-step unfolding of the replace scan at a match site. -/
theorem jsReplaceGo_pos (pat rep pre l : List Char)
    (hg : pat ≠ [] ∧ (pat.length ≤ l.length ∧ isPrefList pat l = true)) :
    jsReplaceGo pat rep pre l =
      jsExpand pat pre (l.drop pat.length) rep ++
        jsReplaceGo pat rep (pre ++ pat) (l.drop pat.length) := by
  rw [jsReplaceGo.eq_def, dif_pos hg]

/-- One-step unfolding of the replace scan on the empty text. -/
theorem jsReplaceGo_neg_nil (pat rep pre : List Char)
    (hg : ¬(pat ≠ [] ∧ (pat.length ≤ ([] : List Char).length ∧ isPrefList pat [] = true))) :
    jsReplaceGo pat rep pre [] = [] := by
  rw [jsReplaceGo.eq_def, dif_neg hg]

/-- One-step unfolding of the replace scan past a non-matching character. -/
theorem jsReplaceGo_neg_cons (pat rep pre : List Char) (c : Char) (rest : List Char)
    (hg : ¬(pat ≠ [] ∧ (pat.length ≤ (c :: rest).length ∧ isPrefList pat (c :: rest) = true))) :
    jsReplaceGo pat rep pre (c :: rest) = c :: jsReplaceGo pat rep (pre ++ [c]) rest := by
  rw [jsReplaceGo.eq_def, dif_neg hg]

/-- One-step unfolding of the split at a match site. -/
theorem splitOnSeq_pos (pat l : List Char)
    (hg : pat ≠ [] ∧ (pat.length ≤ l.length ∧ isPrefList pat l = true)) :
    splitOnSeq pat l = [] :: splitOnSeq pat (l.drop pat.length) := by
  rw [splitOnSeq.eq_def, dif_pos hg]

/-- One-step unfolding of the split on the empty text. -/
theorem splitOnSeq_neg_nil (pat : List Char)
    (hg : ¬(pat ≠ [] ∧ (pat.length ≤ ([] : List Char).length ∧ isPrefList pat [] = true))) :
    splitOnSeq pat [] = [[]] := by
  rw [splitOnSeq.eq_def, dif_neg hg]

/-- One-step unfolding of the split past a non-matching character. -/
theorem splitOnSeq_neg_cons (pat : List Char) (c : Char) (rest : List Char)
    (hg : ¬(pat ≠ [] ∧ (pat.length ≤ (c :: rest).length ∧ isPrefList pat (c :: rest) = true))) :
    splitOnSeq pat (c :: rest)
      = match splitOnSeq pat rest with
        | [] => [[c]]
        | p :: ps => (c :: p) :: ps := by
  rw [splitOnSeq.eq_def, dif_neg hg]

/-- The split always produces at least one part. -/
theorem splitOnSeq_ne_nil (pat l : List Char) : splitOnSeq pat l ≠ [] := by
  by_cases hg : pat ≠ [] ∧ (pat.length ≤ l.length ∧ isPrefList pat l = true)
  · rw [splitOnSeq_pos _ _ hg]
    simp
  · rcases l with _ | ⟨c, rest⟩
    · rw [splitOnSeq_neg_nil _ hg]
      simp
    · rw [splitOnSeq_neg_cons _ _ _ hg]
      rcases splitOnSeq pat rest with _ | ⟨p, ps⟩ <;> simp

/-- A replacement string without a dollar character expands to itself. -/
theorem jsExpand_no_dollar (m pre post : List Char) :
    ∀ rep, '$' ∉ rep → jsExpand m pre post rep = rep := by
  have H : ∀ n rep, rep.length ≤ n → '$' ∉ rep → jsExpand m pre post rep = rep := by
    intro n
    induction n with
    | zero =>
      intro rep hlen hd
      have hnil : rep = [] := List.length_eq_zero.mp (Nat.le_zero.mp hlen)
      subst hnil
      rfl
    | succ n ih =>
      intro rep hlen hd
      rcases rep with _ | ⟨c, _ | ⟨d, rest⟩⟩
      · rfl
      · rfl
      · have hc : c ≠ '$' := by
          intro hh
          apply hd
          rw [← hh]
          exact List.mem_cons_self _ _
        have hrest : '$' ∉ d :: rest := fun hm => hd (List.mem_cons_of_mem _ hm)
        simp only [jsExpand]
        rw [if_neg hc]
        rw [ih (d :: rest) (by simp at hlen ⊢; omega) hrest]
  intro rep
  exact H rep.length rep le_rfl

/-- Characterization of the global replace for a dollar-free replacement:
splitting the text greedily on the pattern, the scan output is the parts
joined with the replacement, the parts joined with the pattern reconstruct
the text, and no part contains an occurrence of the pattern — so *every*
occurrence is replaced, not only the first. -/
theorem jsReplaceGo_split (pat rep : List Char) (hpat : pat ≠ []) (hrep : '$' ∉ rep) :
    ∀ n l, l.length ≤ n → ∀ pre,
      jsReplaceGo pat rep pre l = joinWith rep (splitOnSeq pat l) ∧
      joinWith pat (splitOnSeq pat l) = l ∧
      ∀ part ∈ splitOnSeq pat l, containsSeq pat part = false := by
  intro n
  induction n with
  | zero =>
    intro l hlen pre
    have hl : l = [] := List.length_eq_zero.mp (Nat.le_zero.mp hlen)
    subst hl
    have hg : ¬(pat ≠ [] ∧ (pat.length ≤ ([] : List Char).length ∧ isPrefList pat [] = true)) := by
      rintro ⟨h1, h2, h3⟩
      exact h1 (List.length_eq_zero.mp (Nat.le_zero.mp h2))
    rw [jsReplaceGo_neg_nil _ _ _ hg, splitOnSeq_neg_nil _ hg]
    refine ⟨rfl, rfl, ?_⟩
    intro part hp
    rw [List.mem_singleton] at hp
    subst hp
    exact containsSeq_nil pat hpat
  | succ n ih =>
    intro l hlen pre
    by_cases hg : pat ≠ [] ∧ (pat.length ≤ l.length ∧ isPrefList pat l = true)
    · obtain ⟨t, ht⟩ := (isPrefList_iff pat l).mp hg.2.2
      have hdrop : l.drop pat.length = t := by
        rw [ht]
        exact List.drop_left pat t
      have hplen : 0 < pat.length := List.length_pos.mpr hpat
      have htlen : t.length ≤ n := by
        have hll := hlen
        rw [ht] at hll
        simp at hll
        omega
      obtain ⟨ih1, ih2, ih3⟩ := ih t htlen (pre ++ pat)
      rw [jsReplaceGo_pos _ _ _ _ hg, splitOnSeq_pos _ _ hg, hdrop]
      rcases hsp : splitOnSeq pat t with _ | ⟨q, qs⟩
      · exact absurd hsp (splitOnSeq_ne_nil pat t)
      · rw [hsp] at ih1 ih2 ih3
        refine ⟨?_, ?_, ?_⟩
        · rw [jsExpand_no_dollar pat pre t rep hrep, ih1]
          rfl
        · show pat ++ joinWith pat (q :: qs) = l
          rw [ih2, ht]
        · intro part hp
          rw [List.mem_cons] at hp
          rcases hp with rfl | hp
          · exact containsSeq_nil pat hpat
          · exact ih3 part hp
    · rcases l with _ | ⟨c, rest⟩
      · rw [jsReplaceGo_neg_nil _ _ _ hg, splitOnSeq_neg_nil _ hg]
        refine ⟨rfl, rfl, ?_⟩
        intro part hp
        rw [List.mem_singleton] at hp
        subst hp
        exact containsSeq_nil pat hpat
      · obtain ⟨ih1, ih2, ih3⟩ := ih rest (by simp at hlen ⊢; omega) (pre ++ [c])
        rw [jsReplaceGo_neg_cons _ _ _ _ _ hg, splitOnSeq_neg_cons _ _ _ hg]
        have hnotpref : isPrefList pat (c :: rest) = false := by
          cases hpf : isPrefList pat (c :: rest)
          · rfl
          · exact absurd ⟨hpat, isPrefList_le_length pat _ hpf, hpf⟩ hg
        rcases hsp : splitOnSeq pat rest with _ | ⟨q, qs⟩
        · exact absurd hsp (splitOnSeq_ne_nil pat rest)
        · rw [hsp] at ih1 ih2 ih3
          rcases qs with _ | ⟨q2, qs2⟩
          · refine ⟨?_, ?_, ?_⟩
            · rw [ih1]
              rfl
            · show c :: joinWith pat [q] = c :: rest
              rw [ih2]
            · intro part hp
              rw [List.mem_singleton] at hp
              subst hp
              have hq0 : containsSeq pat q = false := ih3 q (by simp)
              have hqr : q = rest := ih2
              have hpre : isPrefList pat (c :: q) = false := by
                rw [hqr]
                exact hnotpref
              rw [containsSeq_cons, hpre]
              simp [hq0]
          · refine ⟨?_, ?_, ?_⟩
            · rw [ih1]
              rfl
            · show c :: joinWith pat (q :: q2 :: qs2) = c :: rest
              rw [ih2]
            · intro part hp
              rw [List.mem_cons] at hp
              rcases hp with rfl | hp
              · have hq0 : containsSeq pat q = false := ih3 q (by simp)
                have hrest : rest = (q ++ pat) ++ joinWith pat (q2 :: qs2) := ih2.symm
                rw [List.append_assoc] at hrest
                have hpre : isPrefList pat (c :: q) = false := by
                  cases hpf : isPrefList pat (c :: q)
                  · rfl
                  · exfalso
                    have h2 : isPrefList pat
                        ((c :: q) ++ (pat ++ joinWith pat (q2 :: qs2))) = true :=
                      isPrefList_append_right _ _ _ hpf
                    have h3 : (c :: q) ++ (pat ++ joinWith pat (q2 :: qs2)) = c :: rest := by
                      rw [hrest]
                      rfl
                    rw [h3, hnotpref] at h2
                    exact Bool.noConfusion h2
                rw [containsSeq_cons, hpre]
                simp [hq0]
              · exact ih3 part (List.mem_cons_of_mem q hp)

/-- C9 counterexample: for the derived database name `org_$&` the substituted
script is not the template with the placeholder replaced by the name —
JavaScript expands `$&` in a string replacement to the matched text, so the
placeholder effectively survives; the substitution is not a pure text
substitution for every derived name. -/
theorem C9_counterexample :
    substituteSchema "__DATABASE_NAME__" "org_$&" = "org___DATABASE_NAME__" ∧
    substituteSchema "__DATABASE_NAME__" "org_$&" ≠ "org_$&" := by
  have key : substituteSchema "__DATABASE_NAME__" "org_$&" = "org___DATABASE_NAME__" := by
    unfold substituteSchema jsReplaceAll
    rw [jsReplaceGo_pos _ _ _ _ ⟨by decide, by decide, by decide⟩]
    rw [show ("__DATABASE_NAME__".data.drop "__DATABASE_NAME__".data.length)
        = ([] : List Char) from by decide]
    rw [jsReplaceGo_neg_nil _ _ _ (by decide)]
    decide
  refine ⟨key, ?_⟩
  rw [key]
  decide

/-- C9 amended: for every schema template and every derived database name
*not containing a dollar character* (names containing JavaScript replacement
patterns such as `$&` are expanded specially, see the counterexample), the
executed script is the template with every occurrence of the placeholder
token replaced by the name: the template splits into placeholder-free parts
joined by placeholder occurrences, and the script is exactly those parts
joined by the database name — all occurrences substituted, not only the
first. -/
theorem C9_placeholder_substitution_amended (schemaContent database : String)
    (hd : '$' ∉ database.data) :
    (substituteSchema schemaContent database).data
      = joinWith database.data (splitOnSeq "__DATABASE_NAME__".data schemaContent.data) ∧
    joinWith "__DATABASE_NAME__".data
        (splitOnSeq "__DATABASE_NAME__".data schemaContent.data)
      = schemaContent.data ∧
    (∀ part ∈ splitOnSeq "__DATABASE_NAME__".data schemaContent.data,
      containsSeq "__DATABASE_NAME__".data part = false) :=
  jsReplaceGo_split "__DATABASE_NAME__".data database.data (by decide) hd
    schemaContent.data.length schemaContent.data le_rfl []

/-- C9 witness: a template with two placeholder occurrences and the
dollar-free name `org_acme`. -/
theorem C9_placeholder_substitution_amended_witness :
    (substituteSchema "DEFINE DATABASE __DATABASE_NAME__; USE DB __DATABASE_NAME__;"
        "org_acme").data
      = joinWith "org_acme".data (splitOnSeq "__DATABASE_NAME__".data
          "DEFINE DATABASE __DATABASE_NAME__; USE DB __DATABASE_NAME__;".data) :=
  (C9_placeholder_substitution_amended
    "DEFINE DATABASE __DATABASE_NAME__; USE DB __DATABASE_NAME__;" "org_acme"
    (by decide)).1
